import Mathlib

/-!
# org-capture-server: capture-to-storage pipeline

A shallow embedding of `server.go` (package `main`) and a verification of its
capture pipeline: `appendToFile`, `OrgEntry.save`, `dispatchOnTag` and
`captureHandler`.

Go strings and `[]byte` values are byte sequences, so both are lists of `UInt8`
and the conversion `[]byte(s)` is the identity.  Stateful code passes an explicit
operating-system state `OS` (file contents, open descriptors, a system-call
trace, the log) and returns an `Outcome`: either the function returned, or the
process was terminated by `os.Exit` (which is how `log.Fatal` ends).
-/

namespace OrgCapture

/-! ## Bytes and strings -/

/-- A Go `[]byte`. -/
abbrev Bytes := List UInt8

/-- A Go `string`: an immutable sequence of bytes. -/
abbrev GoString := List UInt8

/-- The bytes of a Go string literal (Go source text is UTF-8). -/
def lit (s : String) : GoString := s.data.flatMap String.utf8EncodeChar

/-! ## The operating system as seen by the program -/

/-- Go `error` values produced by the calls the program makes. -/
inductive GoError where
  /-- The `*fs.PathError` of a failed `open` or `write`: operation, path, errno. -/
  | pathError (op : String) (path : GoString) (errno : Nat)
  /-- The error `os.ErrClosed`, from using a file whose descriptor is not open. -/
  | errClosed
  deriving DecidableEq, Repr

/-- System calls issued by the process, in order. -/
inductive SysEvent where
  /-- An `open` of `path`; `ok` tells whether a descriptor was obtained. -/
  | opened (path : GoString) (ok : Bool)
  /-- A `write` on the file opened at `path`, called with `data`, of which the
  first `n` bytes were written. -/
  | wrote (path : GoString) (data : Bytes) (n : Nat)
  /-- A `close` of the descriptor opened at `path`. -/
  | closed (path : GoString)
  deriving DecidableEq, Repr

/-- Lines handed to package `log`, kept structured (no timestamp, no formatting). -/
inductive LogLine where
  /-- The call `log.Printf("Added entry to %s (%d bytes written)", filename, n)`. -/
  | addedEntry (filename : GoString) (bytesWritten : Nat)
  /-- The call `log.Fatal(tag, err)`. -/
  | fatal (tag : GoString) (err : GoError)
  deriving DecidableEq, Repr

/-- State of the operating system around the process.

* `resolve` is path resolution: it maps a path to the name that identifies the
  file the path leads to, so two spellings or links of one file (`org//c.org`
  and `org/c.org`) resolve alike; the program never changes it;
* `disk` maps a resolved name to the content of the regular file there, if any;
* `openFault p = some errno` makes every `open` of `p` fail with `errno`
  (permission denied, missing parent directory, ...);
* `writeFault p = some (k, errno)` makes a `write` of more than `k` bytes to the
  file opened at `p` stop after `k` bytes with `errno` (disk full, I/O error);
* `openFds` is the set of descriptors the process holds open;
* `trace` and `log` record the system calls and log lines so far. -/
structure OS where
  resolve : GoString → GoString
  disk : GoString → Option Bytes
  openFault : GoString → Option Nat
  writeFault : GoString → Option (Nat × Nat)
  openFds : List Nat
  trace : List SysEvent
  log : List LogLine

/-- The file system as a map from path to bytes: the content of the regular file
that path `p` leads to, if any. -/
def OS.files (os : OS) (p : GoString) : Option Bytes := os.disk (os.resolve p)

/-- Result of running a piece of the program: it returned `a`, or the process
ended with `os.Exit code`.  Both carry the operating-system state reached. -/
inductive Outcome (α : Type) where
  | ret (a : α) (os : OS)
  | exit (code : Nat) (os : OS)

/-- Operating-system state at the end of a run. -/
def Outcome.os {α : Type} : Outcome α → OS
  | .ret _ os => os
  | .exit _ os => os

/-- Whether the run returned to its caller. -/
def Outcome.returned {α : Type} : Outcome α → Bool
  | .ret _ _ => true
  | .exit _ _ => false

/-- The returned value, if the run returned. -/
def Outcome.value? {α : Type} : Outcome α → Option α
  | .ret a _ => some a
  | .exit _ _ => none

/-- An `*os.File`: the descriptor and the name it was opened with. -/
structure File where
  fd : Nat
  name : GoString
  deriving DecidableEq, Repr

/-- A descriptor number not in use: one more than the largest open one. -/
def freshFd (fds : List Nat) : Nat := fds.foldl max 0 + 1

/-- The call `os.OpenFile(name, os.O_APPEND|os.O_CREATE|os.O_WRONLY, perm)`:
fails with a `*PathError` when the system refuses the open; otherwise resolves
the path, creates an empty file there if none exists (`O_CREATE`, no `O_TRUNC`:
existing content is kept) and returns a new descriptor in append mode.  The permission bits `perm` only
matter to other processes and are not tracked. -/
def osOpenFile (name : GoString) (_perm : Nat) (os : OS) : Except GoError File × OS :=
  match os.openFault name with
  | some errno =>
    (.error (.pathError "open" name errno),
      { os with trace := os.trace ++ [.opened name false] })
  | none =>
    let fd := freshFd os.openFds
    (.ok ⟨fd, name⟩,
      { os with
        disk := fun i =>
          if i = os.resolve name then some ((os.files name).getD []) else os.disk i
        openFds := fd :: os.openFds
        trace := os.trace ++ [.opened name true] })

/-- The method `(*os.File).Write` on a file opened with `O_APPEND`: the bytes go
to the end of the file the descriptor was opened on.  Returns the number of bytes written and a non-nil
error exactly when fewer than `len(b)` were written. -/
def fileWrite (f : File) (b : Bytes) (os : OS) : (Nat × Option GoError) × OS :=
  if f.fd ∈ os.openFds then
    let old := (os.files f.name).getD []
    match os.writeFault f.name with
    | some (k, errno) =>
      if k < b.length then
        ((k, some (.pathError "write" f.name errno)),
          { os with
            disk := fun i => if i = os.resolve f.name then some (old ++ b.take k) else os.disk i
            trace := os.trace ++ [.wrote f.name b k] })
      else
        ((b.length, none),
          { os with
            disk := fun i => if i = os.resolve f.name then some (old ++ b) else os.disk i
            trace := os.trace ++ [.wrote f.name b b.length] })
    | none =>
      ((b.length, none),
        { os with
          disk := fun i => if i = os.resolve f.name then some (old ++ b) else os.disk i
          trace := os.trace ++ [.wrote f.name b b.length] })
  else
    ((0, some .errClosed), os)

/-- The method `(*os.File).Close`: releases the descriptor. -/
def fileClose (f : File) (os : OS) : Option GoError × OS :=
  if f.fd ∈ os.openFds then
    (none, { os with openFds := os.openFds.erase f.fd, trace := os.trace ++ [.closed f.name] })
  else
    (some .errClosed, os)

/-- The call `log.Fatal(tag, err)`: prints, then calls `os.Exit(1)`.  The process
ends at once; deferred calls are not run and nothing is returned. -/
def logFatal {α : Type} (tag : GoString) (err : GoError) (os : OS) : Outcome α :=
  .exit 1 { os with log := os.log ++ [.fatal tag err] }

/-- The call `log.Printf(...)`: prints and returns. -/
def logPrintf (line : LogLine) (os : OS) : OS :=
  { os with log := os.log ++ [line] }

/-! ## The request payload -/

/-- Embedding of `type Capture struct`. -/
structure Capture where
  Tag : GoString
  Headline : GoString
  Body : GoString
  TagSpecific : GoString
  deriving DecidableEq, Repr

/-!
## encoding/json

`captureHandler` decodes the request body with
`json.NewDecoder(req.Body).Decode(&capture)` and drops the error.  That call is
Go's standard library; the sections below transcribe what it runs: the scanner
(a state machine driven byte by byte), `readValue` (which isolates the first
JSON value of the stream and rejects a syntax error before anything is
stored), the unquoting of string literals, and the store of an object into the
four string fields of `Capture`.
-/

/-! ## encoding/json: the scanner (scanner.go) -/

/-- Opcodes returned by the scanner's state functions. -/
inductive ScanOp where
  | scanContinue | scanBeginLiteral | scanBeginObject | scanObjectKey | scanObjectValue
  | scanEndObject | scanBeginArray | scanArrayValue | scanEndArray | scanSkipSpace
  | scanEnd | scanError
  deriving DecidableEq, Repr

/-- Entries of the scanner's parse-state stack. -/
inductive ParseState where
  | parseObjectKey | parseObjectValue | parseArrayValue
  deriving DecidableEq, Repr

/-- The scanner's state functions, by name. -/
inductive StepFn where
  | stateBeginValueOrEmpty | stateBeginValue | stateBeginStringOrEmpty | stateBeginString
  | stateEndValue | stateEndTop | stateInString | stateInStringEsc | stateInStringEscU
  | stateInStringEscU1 | stateInStringEscU12 | stateInStringEscU123 | stateNeg | state1
  | state0 | stateDot | stateDot0 | stateE | stateESign | stateE0 | stateT | stateTr
  | stateTru | stateF | stateFa | stateFal | stateFals | stateN | stateNu | stateNul
  | stateError
  deriving DecidableEq, Repr

/-- The JSON scanner: current state function, whether the top-level value has
ended, the stack of enclosing composites (innermost first) and the error flag. -/
structure Scanner where
  step : StepFn
  endTop : Bool
  parseState : List ParseState
  err : Bool
  deriving DecidableEq, Repr

/-- Nesting limit of the scanner. -/
def maxNestingDepth : Nat := 10000

/-- The method `reset`. -/
def Scanner.reset : Scanner :=
  { step := .stateBeginValue, endTop := false, parseState := [], err := false }

/-- The method `error`: records a syntax error and locks the scanner. -/
def Scanner.error (s : Scanner) : ScanOp × Scanner :=
  (.scanError, { s with step := .stateError, err := true })

/-- The method `pushParseState`. -/
def Scanner.pushParseState (s : Scanner) (newParseState : ParseState) (successState : ScanOp) :
    ScanOp × Scanner :=
  let s1 := { s with parseState := newParseState :: s.parseState }
  if s1.parseState.length ≤ maxNestingDepth then (successState, s1) else s1.error

/-- The method `popParseState`. -/
def Scanner.popParseState (s : Scanner) : Scanner :=
  let rest := s.parseState.tail
  if rest.length = 0 then { s with parseState := rest, step := .stateEndTop, endTop := true }
  else { s with parseState := rest, step := .stateEndValue }

/-- Space, tab, carriage return or line feed. -/
def isSpace (c : UInt8) : Bool :=
  c ≤ 0x20 && (c == 0x20 || c == 0x09 || c == 0x0D || c == 0x0A)

/-- An ASCII decimal digit. -/
def isDigit (c : UInt8) : Bool := 0x30 ≤ c && c ≤ 0x39

/-- An ASCII hexadecimal digit. -/
def isHex (c : UInt8) : Bool :=
  (0x30 ≤ c && c ≤ 0x39) || (0x61 ≤ c && c ≤ 0x66) || (0x41 ≤ c && c ≤ 0x46)

/-- State after the top-level value: a non-space byte is an error reported on the
next call; this call reports `scanEnd`. -/
def stateEndTop (s : Scanner) (c : UInt8) : ScanOp × Scanner :=
  if !isSpace c then (.scanEnd, s.error.2) else (.scanEnd, s)

/-- State after a complete value. -/
def stateEndValue (s : Scanner) (c : UInt8) : ScanOp × Scanner :=
  match s.parseState with
  | [] => stateEndTop { s with step := .stateEndTop, endTop := true } c
  | ps :: rest =>
    if isSpace c then (.scanSkipSpace, { s with step := .stateEndValue })
    else
      match ps with
      | .parseObjectKey =>
        if c = 0x3A then -- colon
          (.scanObjectKey, { s with parseState := .parseObjectValue :: rest, step := .stateBeginValue })
        else s.error
      | .parseObjectValue =>
        if c = 0x2C then -- comma
          (.scanObjectValue, { s with parseState := .parseObjectKey :: rest, step := .stateBeginString })
        else if c = 0x7D then -- closing brace
          (.scanEndObject, s.popParseState)
        else s.error
      | .parseArrayValue =>
        if c = 0x2C then (.scanArrayValue, { s with step := .stateBeginValue })
        else if c = 0x5D then -- closing bracket
          (.scanEndArray, s.popParseState)
        else s.error

/-- State at the beginning of a value. -/
def stateBeginValue (s : Scanner) (c : UInt8) : ScanOp × Scanner :=
  if isSpace c then (.scanSkipSpace, s)
  else if c = 0x7B then -- opening brace
    { s with step := .stateBeginStringOrEmpty }.pushParseState .parseObjectKey .scanBeginObject
  else if c = 0x5B then -- opening bracket
    { s with step := .stateBeginValueOrEmpty }.pushParseState .parseArrayValue .scanBeginArray
  else if c = 0x22 then (.scanBeginLiteral, { s with step := .stateInString })
  else if c = 0x2D then (.scanBeginLiteral, { s with step := .stateNeg })
  else if c = 0x30 then (.scanBeginLiteral, { s with step := .state0 })
  else if c = 0x74 then (.scanBeginLiteral, { s with step := .stateT })
  else if c = 0x66 then (.scanBeginLiteral, { s with step := .stateF })
  else if c = 0x6E then (.scanBeginLiteral, { s with step := .stateN })
  else if 0x31 ≤ c && c ≤ 0x39 then (.scanBeginLiteral, { s with step := .state1 })
  else s.error

/-- State after the opening bracket of an array. -/
def stateBeginValueOrEmpty (s : Scanner) (c : UInt8) : ScanOp × Scanner :=
  if isSpace c then (.scanSkipSpace, s)
  else if c = 0x5D then stateEndValue s c
  else stateBeginValue s c

/-- State before an object key. -/
def stateBeginString (s : Scanner) (c : UInt8) : ScanOp × Scanner :=
  if isSpace c then (.scanSkipSpace, s)
  else if c = 0x22 then (.scanBeginLiteral, { s with step := .stateInString })
  else s.error

/-- State after the opening brace of an object. -/
def stateBeginStringOrEmpty (s : Scanner) (c : UInt8) : ScanOp × Scanner :=
  if isSpace c then (.scanSkipSpace, s)
  else if c = 0x7D then
    stateEndValue { s with parseState := .parseObjectValue :: s.parseState.tail } c
  else stateBeginString s c

/-- State inside a string literal. -/
def stateInString (s : Scanner) (c : UInt8) : ScanOp × Scanner :=
  if c = 0x22 then (.scanContinue, { s with step := .stateEndValue })
  else if c = 0x5C then (.scanContinue, { s with step := .stateInStringEsc })
  else if c < 0x20 then s.error
  else (.scanContinue, s)

/-- State after a backslash in a string literal. -/
def stateInStringEsc (s : Scanner) (c : UInt8) : ScanOp × Scanner :=
  if c = 0x62 || c = 0x66 || c = 0x6E || c = 0x72 || c = 0x74 || c = 0x5C || c = 0x2F
      || c = 0x22 then
    (.scanContinue, { s with step := .stateInString })
  else if c = 0x75 then (.scanContinue, { s with step := .stateInStringEscU })
  else s.error

/-- States inside a `\u` escape: a hexadecimal digit moves to `next`. -/
def stateHexDigit (next : StepFn) (s : Scanner) (c : UInt8) : ScanOp × Scanner :=
  if isHex c then (.scanContinue, { s with step := next }) else s.error

/-- States spelling out `true`, `false` and `null`: byte `want` moves to `next`. -/
def stateLetter (want : UInt8) (next : StepFn) (s : Scanner) (c : UInt8) : ScanOp × Scanner :=
  if c = want then (.scanContinue, { s with step := next }) else s.error

/-- State after the digits of an exponent. -/
def stateE0 (s : Scanner) (c : UInt8) : ScanOp × Scanner :=
  if isDigit c then (.scanContinue, s) else stateEndValue s c

/-- State after the sign of an exponent. -/
def stateESign (s : Scanner) (c : UInt8) : ScanOp × Scanner :=
  if isDigit c then (.scanContinue, { s with step := .stateE0 }) else s.error

/-- State after the exponent letter. -/
def stateE (s : Scanner) (c : UInt8) : ScanOp × Scanner :=
  if c = 0x2B || c = 0x2D then (.scanContinue, { s with step := .stateESign })
  else stateESign s c

/-- State after a digit following the decimal point. -/
def stateDot0 (s : Scanner) (c : UInt8) : ScanOp × Scanner :=
  if isDigit c then (.scanContinue, s)
  else if c = 0x65 || c = 0x45 then (.scanContinue, { s with step := .stateE })
  else stateEndValue s c

/-- State after the decimal point. -/
def stateDot (s : Scanner) (c : UInt8) : ScanOp × Scanner :=
  if isDigit c then (.scanContinue, { s with step := .stateDot0 }) else s.error

/-- State after a leading zero. -/
def state0 (s : Scanner) (c : UInt8) : ScanOp × Scanner :=
  if c = 0x2E then (.scanContinue, { s with step := .stateDot })
  else if c = 0x65 || c = 0x45 then (.scanContinue, { s with step := .stateE })
  else stateEndValue s c

/-- State after a non-zero leading digit. -/
def state1 (s : Scanner) (c : UInt8) : ScanOp × Scanner :=
  if isDigit c then (.scanContinue, { s with step := .state1 }) else state0 s c

/-- State after a minus sign. -/
def stateNeg (s : Scanner) (c : UInt8) : ScanOp × Scanner :=
  if c = 0x30 then (.scanContinue, { s with step := .state0 })
  else if 0x31 ≤ c && c ≤ 0x39 then (.scanContinue, { s with step := .state1 })
  else s.error

/-- One scanner transition: the call `s.step(s, c)`. -/
def Scanner.next (s : Scanner) (c : UInt8) : ScanOp × Scanner :=
  match s.step with
  | .stateBeginValueOrEmpty => stateBeginValueOrEmpty s c
  | .stateBeginValue => stateBeginValue s c
  | .stateBeginStringOrEmpty => stateBeginStringOrEmpty s c
  | .stateBeginString => stateBeginString s c
  | .stateEndValue => stateEndValue s c
  | .stateEndTop => stateEndTop s c
  | .stateInString => stateInString s c
  | .stateInStringEsc => stateInStringEsc s c
  | .stateInStringEscU => stateHexDigit .stateInStringEscU1 s c
  | .stateInStringEscU1 => stateHexDigit .stateInStringEscU12 s c
  | .stateInStringEscU12 => stateHexDigit .stateInStringEscU123 s c
  | .stateInStringEscU123 => stateHexDigit .stateInString s c
  | .stateNeg => stateNeg s c
  | .state1 => state1 s c
  | .state0 => state0 s c
  | .stateDot => stateDot s c
  | .stateDot0 => stateDot0 s c
  | .stateE => stateE s c
  | .stateESign => stateESign s c
  | .stateE0 => stateE0 s c
  | .stateT => stateLetter 0x72 .stateTr s c
  | .stateTr => stateLetter 0x75 .stateTru s c
  | .stateTru => stateLetter 0x65 .stateEndValue s c
  | .stateF => stateLetter 0x61 .stateFa s c
  | .stateFa => stateLetter 0x6C .stateFal s c
  | .stateFal => stateLetter 0x73 .stateFals s c
  | .stateFals => stateLetter 0x65 .stateEndValue s c
  | .stateN => stateLetter 0x75 .stateNu s c
  | .stateNu => stateLetter 0x6C .stateNul s c
  | .stateNul => stateLetter 0x6C .stateEndValue s c
  | .stateError => (.scanError, s)

/-- The method `eof`: whether the input may end here. -/
def Scanner.eof (s : Scanner) : ScanOp :=
  if s.err then .scanError
  else if s.endTop then .scanEnd
  else if (s.next 0x20).2.endTop then .scanEnd
  else .scanError

/-- Loop of `checkValid`: feeds the bytes to the scanner; `none` on an error. -/
def checkValidLoop (s : Scanner) : Bytes → Option Scanner
  | [] => some s
  | c :: rest =>
    match s.next c with
    | (.scanError, _) => none
    | (_, s1) => checkValidLoop s1 rest

/-- The function `json.Valid` (through `checkValid`): whether `data` is exactly
one JSON value, surrounded by optional white space. -/
def valid (data : Bytes) : Bool :=
  match checkValidLoop Scanner.reset data with
  | none => false
  | some s => s.eof = .scanEnd

/-! ## encoding/json: reading one value from the stream (stream.go) -/


/-- Errors returned by `(*Decoder).Decode`. -/
inductive JsonError where
  /-- A `*SyntaxError`. -/
  | syntaxError
  /-- The error `io.EOF`: the input held no value at all. -/
  | eof
  /-- The error `io.ErrUnexpectedEOF`: the input ended inside a value. -/
  | unexpectedEOF
  /-- An `*UnmarshalTypeError` for a JSON value of the named kind. -/
  | unmarshalTypeError (value : String)
  /-- The decoder lost step with the scanner (a panic in Go). -/
  | phasePanic
  deriving DecidableEq, Repr

/-- Loop of `(*Decoder).readValue` over the bytes still unread: `scanp` bytes are
already accepted.  Returns the length of the first complete JSON value, or
`none` when the input ends first. -/
def readValueLoop (s : Scanner) (scanp : Nat) : Bytes → Except JsonError (Option Nat)
  | [] => if (s.next 0x20).1 = .scanEnd then .ok (some scanp) else .ok none
  | c :: rest =>
    match s.next c with
    | (.scanEnd, _) => .ok (some scanp)
    | (.scanEndObject, s1) =>
      match stateEndValue s1 0x20 with
      | (.scanEnd, _) => .ok (some (scanp + 1))
      | (_, s2) => readValueLoop s2 (scanp + 1) rest
    | (.scanEndArray, s1) =>
      match stateEndValue s1 0x20 with
      | (.scanEnd, _) => .ok (some (scanp + 1))
      | (_, s2) => readValueLoop s2 (scanp + 1) rest
    | (.scanError, _) => .error .syntaxError
    | (_, s1) => readValueLoop s1 (scanp + 1) rest

/-- The method `(*Decoder).readValue` on a stream that delivers `buf` and then
`io.EOF`: the length of the first JSON value in `buf`. -/
def readValue (buf : Bytes) : Except JsonError Nat :=
  match readValueLoop Scanner.reset 0 buf with
  | .error e => .error e
  | .ok (some n) => .ok n
  | .ok none => if buf.any (fun c => !isSpace c) then .error .unexpectedEOF else .error .eof


/-! ## encoding/json: string literals (decode.go, unicode/utf8) -/

/-- The Unicode replacement character U+FFFD (`utf8.RuneError`). -/
def runeError : Nat := 0xFFFD

/-- The function `utf8.EncodeRune`, returning the bytes written. -/
def encodeRune (r : Nat) : Bytes :=
  if r ≤ 0x7F then [UInt8.ofNat r]
  else if r ≤ 0x7FF then [UInt8.ofNat (0xC0 + r / 64), UInt8.ofNat (0x80 + r % 64)]
  else if r > 0x10FFFF || (0xD800 ≤ r && r ≤ 0xDFFF) then [0xEF, 0xBF, 0xBD]
  else if r ≤ 0xFFFF then
    [UInt8.ofNat (0xE0 + r / 4096), UInt8.ofNat (0x80 + r / 64 % 64), UInt8.ofNat (0x80 + r % 64)]
  else
    [UInt8.ofNat (0xF0 + r / 262144), UInt8.ofNat (0x80 + r / 4096 % 64),
      UInt8.ofNat (0x80 + r / 64 % 64), UInt8.ofNat (0x80 + r % 64)]

/-- Tables `first` and `acceptRanges` of `unicode/utf8` for a lead byte `p0` of a
multi-byte sequence: the sequence length and the range allowed for the second
byte; `none` for a byte that cannot start a sequence. -/
def utf8Lead (p0 : UInt8) : Option (Nat × UInt8 × UInt8) :=
  if 0xC2 ≤ p0 && p0 ≤ 0xDF then some (2, 0x80, 0xBF)
  else if p0 = 0xE0 then some (3, 0xA0, 0xBF)
  else if 0xE1 ≤ p0 && p0 ≤ 0xEC then some (3, 0x80, 0xBF)
  else if p0 = 0xED then some (3, 0x80, 0x9F)
  else if 0xEE ≤ p0 && p0 ≤ 0xEF then some (3, 0x80, 0xBF)
  else if p0 = 0xF0 then some (4, 0x90, 0xBF)
  else if 0xF1 ≤ p0 && p0 ≤ 0xF3 then some (4, 0x80, 0xBF)
  else if p0 = 0xF4 then some (4, 0x80, 0x8F)
  else none

/-- A continuation byte `0x80..0xBF`. -/
def isCont (b : UInt8) : Bool := 0x80 ≤ b && b ≤ 0xBF

/-- The function `utf8.DecodeRune`: the first rune of `p` and its width in bytes;
`(runeError, 1)` for an invalid or truncated encoding, `(runeError, 0)` for empty
input. -/
def decodeRune (p : Bytes) : Nat × Nat :=
  match p with
  | [] => (runeError, 0)
  | p0 :: rest =>
    if p0 < 0x80 then (p0.toNat, 1)
    else
      match utf8Lead p0 with
      | none => (runeError, 1)
      | some (sz, lo, hi) =>
        match rest with
        | [] => (runeError, 1)
        | b1 :: rest1 =>
          if rest.length + 1 < sz then (runeError, 1)
          else if b1 < lo || hi < b1 then (runeError, 1)
          else if sz ≤ 2 then (p0.toNat % 32 * 64 + b1.toNat % 64, 2)
          else
            match rest1 with
            | [] => (runeError, 1)
            | b2 :: rest2 =>
              if !isCont b2 then (runeError, 1)
              else if sz ≤ 3 then
                (p0.toNat % 16 * 4096 + b1.toNat % 64 * 64 + b2.toNat % 64, 3)
              else
                match rest2 with
                | [] => (runeError, 1)
                | b3 :: _ =>
                  if !isCont b3 then (runeError, 1)
                  else
                    (p0.toNat % 8 * 262144 + b1.toNat % 64 * 4096 + b2.toNat % 64 * 64
                      + b3.toNat % 64, 4)

/-- Value of a hexadecimal digit. -/
def hexVal (c : UInt8) : Option Nat :=
  if 0x30 ≤ c && c ≤ 0x39 then some (c.toNat - 0x30)
  else if 0x61 ≤ c && c ≤ 0x66 then some (c.toNat - 0x61 + 10)
  else if 0x41 ≤ c && c ≤ 0x46 then some (c.toNat - 0x41 + 10)
  else none

/-- The function `getu4`: the code unit of a `\uXXXX` escape at the start of `s`;
`none` where Go returns `-1`. -/
def getu4 (s : Bytes) : Option Nat :=
  match s with
  | b :: u :: h1 :: h2 :: h3 :: h4 :: _ =>
    if b = 0x5C && u = 0x75 then
      match hexVal h1, hexVal h2, hexVal h3, hexVal h4 with
      | some d1, some d2, some d3, some d4 => some (((d1 * 16 + d2) * 16 + d3) * 16 + d4)
      | _, _, _, _ => none
    else none
  | _ => none

/-- The function `utf16.DecodeRune`: the code point of a surrogate pair, or
`runeError` when `r1`, `r2` are not a high and a low surrogate. -/
def utf16DecodeRune (r1 : Nat) (r2 : Option Nat) : Nat :=
  match r2 with
  | none => runeError
  | some r2 =>
    if 0xD800 ≤ r1 && r1 < 0xDC00 && 0xDC00 ≤ r2 && r2 < 0xE000 then
      (r1 - 0xD800) * 1024 + (r2 - 0xDC00) + 0x10000
    else runeError

/-- The simple escapes: the byte that follows the backslash and the byte it
stands for. -/
def simpleEscape (e : UInt8) : Option UInt8 :=
  if e = 0x22 || e = 0x5C || e = 0x2F || e = 0x27 then some e
  else if e = 0x62 then some 0x08
  else if e = 0x66 then some 0x0C
  else if e = 0x6E then some 0x0A
  else if e = 0x72 then some 0x0D
  else if e = 0x74 then some 0x09
  else none

/-- The function `unquoteBytes` on the text between the quotes of a string
literal: escapes are replaced and the result is coerced to well-formed UTF-8;
`none` where Go returns `ok = false`. -/
def unquoteBytes : Bytes → Option Bytes
  | [] => some []
  | c :: rest =>
    if c = 0x5C then
      match rest with
      | [] => none
      | e :: rest1 =>
        if e = 0x75 then
          match rest1 with
          | h1 :: h2 :: h3 :: h4 :: rest2 =>
            match getu4 (c :: e :: h1 :: h2 :: h3 :: h4 :: []) with
            | none => none
            | some rr =>
              if 0xD800 ≤ rr && rr < 0xE000 then
                let dec := utf16DecodeRune rr (getu4 rest2)
                if dec ≠ runeError then
                  match rest2 with
                  | _ :: _ :: _ :: _ :: _ :: _ :: rest3 =>
                    (unquoteBytes rest3).map (encodeRune dec ++ ·)
                  | _ => none
                else (unquoteBytes rest2).map (encodeRune runeError ++ ·)
              else (unquoteBytes rest2).map (encodeRune rr ++ ·)
          | _ => none
        else
          match simpleEscape e with
          | some b => (unquoteBytes rest1).map (b :: ·)
          | none => none
    else if c = 0x22 || c < 0x20 then none
    else if c < 0x80 then (unquoteBytes rest).map (c :: ·)
    else
      let rr := (decodeRune (c :: rest)).1
      let size := (decodeRune (c :: rest)).2
      if size ≤ 1 then (unquoteBytes rest).map (encodeRune rr ++ ·)
      else
        match rest with
        | [] => none
        | _ :: r1 =>
          if size = 2 then (unquoteBytes r1).map (encodeRune rr ++ ·)
          else
            match r1 with
            | [] => none
            | _ :: r2 =>
              if size = 3 then (unquoteBytes r2).map (encodeRune rr ++ ·)
              else
                match r2 with
                | [] => none
                | _ :: r3 => (unquoteBytes r3).map (encodeRune rr ++ ·)


/-!
## encoding/json: storing an object into a `Capture` (decode.go)

`(*decodeState).unmarshal` walks a value that `readValue` has already accepted.
The target is a struct whose fields are all strings, so only the members of the
top-level object can change it: a member whose key names a field and whose
value is a string literal sets the field, a `null` is ignored, any other value
is skipped with an `UnmarshalTypeError`, and nested values are skipped whole.
The walk is written as one pass over the bytes that cuts the object into its
members (`Phase`, `objectMembers`), followed by the store of each member
(`storeMember`).
-/

/-- A member value of the top-level object, as far as a string field cares: a
string literal (the text between its quotes), `null`, or a value of another
kind (`"number"`, `"bool"`, `"object"`, `"array"`). -/
inductive JValue where
  | str (raw : Bytes)
  | null
  | other (kind : String)
  deriving DecidableEq, Repr

/-- Where the decoder is inside the top-level object. -/
inductive Phase where
  /-- A key or the closing brace comes next. -/
  | keyOrEnd
  /-- Inside a key; `esc` after a backslash. -/
  | key (raw : Bytes) (esc : Bool)
  /-- After a key, before the colon. -/
  | colon (key : Bytes)
  /-- After the colon, before the value. -/
  | value (key : Bytes)
  /-- Inside a string value. -/
  | str (key raw : Bytes) (esc : Bool)
  /-- Inside a number, `true`, `false` or `null`. -/
  | literal (key : Bytes) (v : JValue)
  /-- Inside a nested array or object, `depth` levels deep; `inStr` inside a
  string literal, `esc` after a backslash there. -/
  | nested (key : Bytes) (kind : String) (depth : Nat) (inStr esc : Bool)
  /-- After a value: a comma or the closing brace comes next. -/
  | afterValue
  /-- After the closing brace. -/
  | done
  /-- Out of step with the scanner. -/
  | bad
  deriving DecidableEq, Repr

/-- One byte of the object loop of `(*decodeState).object`: the new phase and the
member completed by this byte, if any. -/
def Phase.next (p : Phase) (c : UInt8) : Phase × Option (Bytes × JValue) :=
  match p with
  | .keyOrEnd =>
    if isSpace c then (.keyOrEnd, none)
    else if c = 0x7D then (.done, none)
    else if c = 0x22 then (.key [] false, none)
    else (.bad, none)
  | .key raw esc =>
    if esc then (.key (raw ++ [c]) false, none)
    else if c = 0x5C then (.key (raw ++ [c]) true, none)
    else if c = 0x22 then (.colon raw, none)
    else (.key (raw ++ [c]) false, none)
  | .colon k =>
    if isSpace c then (.colon k, none)
    else if c = 0x3A then (.value k, none)
    else (.bad, none)
  | .value k =>
    if isSpace c then (.value k, none)
    else if c = 0x22 then (.str k [] false, none)
    else if c = 0x7B then (.nested k "object" 1 false false, none)
    else if c = 0x5B then (.nested k "array" 1 false false, none)
    else if c = 0x6E then (.literal k .null, none)
    else if c = 0x74 || c = 0x66 then (.literal k (.other "bool"), none)
    else if c = 0x2D || isDigit c then (.literal k (.other "number"), none)
    else (.bad, none)
  | .str k raw esc =>
    if esc then (.str k (raw ++ [c]) false, none)
    else if c = 0x5C then (.str k (raw ++ [c]) true, none)
    else if c = 0x22 then (.afterValue, some (k, .str raw))
    else (.str k (raw ++ [c]) false, none)
  | .literal k v =>
    if isSpace c then (.afterValue, some (k, v))
    else if c = 0x2C then (.keyOrEnd, some (k, v))
    else if c = 0x7D then (.done, some (k, v))
    else (.literal k v, none)
  | .nested k kind depth inStr esc =>
    if inStr then
      if esc then (.nested k kind depth true false, none)
      else if c = 0x5C then (.nested k kind depth true true, none)
      else if c = 0x22 then (.nested k kind depth false false, none)
      else (.nested k kind depth true false, none)
    else if c = 0x22 then (.nested k kind depth true false, none)
    else if c = 0x7B || c = 0x5B then (.nested k kind (depth + 1) false false, none)
    else if c = 0x7D || c = 0x5D then
      if depth ≤ 1 then (.afterValue, some (k, .other kind))
      else (.nested k kind (depth - 1) false false, none)
    else (.nested k kind depth false false, none)
  | .afterValue =>
    if isSpace c then (.afterValue, none)
    else if c = 0x2C then (.keyOrEnd, none)
    else if c = 0x7D then (.done, none)
    else (.bad, none)
  | .done => (.done, none)
  | .bad => (.bad, none)

/-- The members of the top-level object in source order, each with its key text,
and the phase reached at the end of the data. -/
def objectMembers (p : Phase) : Bytes → Phase × List (Bytes × JValue)
  | [] => (p, [])
  | c :: rest =>
    match p.next c with
    | (p1, none) => objectMembers p1 rest
    | (p1, some m) => ((objectMembers p1 rest).1, m :: (objectMembers p1 rest).2)

/-- The exported fields of `Capture`. -/
inductive Field where
  | Tag | Headline | Body | TagSpecific
  deriving DecidableEq, Repr

/-- JSON names of the fields, from the struct tags. -/
def fieldNames : List (GoString × Field) :=
  [(lit "tag", .Tag), (lit "headline", .Headline), (lit "body", .Body),
    (lit "tagData", .TagSpecific)]

/-- The function `foldName` on ASCII: letters are upper-cased.  Go also folds
non-ASCII runes to the least rune of their case orbit; only the Kelvin sign and
the long s fold to ASCII letters (K and S), which no field name here has, so a key
with a non-ASCII rune matches no field under either definition. -/
def foldName (b : Bytes) : Bytes :=
  b.map (fun c => if 0x61 ≤ c && c ≤ 0x7A then c - 0x20 else c)

/-- Field selected by an object key: an exact name match, else a match under
`foldName`. -/
def findField (key : Bytes) : Option Field :=
  match fieldNames.find? (fun f => f.1 = key) with
  | some f => some f.2
  | none => (fieldNames.find? (fun f => foldName f.1 = foldName key)).map (·.2)

/-- Assignment to a field (`reflect.Value.SetString`). -/
def Capture.set (c : Capture) (f : Field) (s : GoString) : Capture :=
  match f with
  | .Tag => { c with Tag := s }
  | .Headline => { c with Headline := s }
  | .Body => { c with Body := s }
  | .TagSpecific => { c with TagSpecific := s }

/-- The method `saveError`: the first error is kept. -/
def saveError (saved : Option JsonError) (e : JsonError) : Option JsonError :=
  match saved with
  | some e0 => some e0
  | none => some e

/-- One round of the loop of `(*decodeState).object` for a struct: the key is
unquoted and looked up; a string value is stored in the field found, `null`
leaves it alone, any other value records an `UnmarshalTypeError` and is
skipped; the value of an unknown key is skipped. -/
def storeMember (st : Capture × Option JsonError) (m : Bytes × JValue) :
    Capture × Option JsonError :=
  match unquoteBytes m.1 with
  | none => (st.1, saveError st.2 .phasePanic)
  | some key =>
    match findField key with
    | none => st
    | some f =>
      match m.2 with
      | .str raw =>
        match unquoteBytes raw with
        | none => (st.1, saveError st.2 .phasePanic)
        | some s => (st.1.set f s, st.2)
      | .null => st
      | .other kind => (st.1, saveError st.2 (.unmarshalTypeError kind))

/-- The method `(*decodeState).unmarshal` into a `*Capture`, on one complete JSON
value `data`.  An object is stored member by member; a top-level `null` is
ignored; any other top-level value records an `UnmarshalTypeError`. -/
def unmarshal (data : Bytes) (capture : Capture) : Capture × Option JsonError :=
  match data.dropWhile isSpace with
  | [] => (capture, some .phasePanic)
  | c :: rest =>
    if c = 0x7B then
      match objectMembers .keyOrEnd rest with
      | (.done, ms) => ms.foldl storeMember (capture, none)
      | (_, ms) =>
        ((ms.foldl storeMember (capture, none)).1,
          saveError (ms.foldl storeMember (capture, none)).2 .phasePanic)
    else if c = 0x5B then (capture, some (.unmarshalTypeError "array"))
    else if c = 0x22 then (capture, some (.unmarshalTypeError "string"))
    else if c = 0x6E then (capture, none)
    else if c = 0x74 || c = 0x66 then (capture, some (.unmarshalTypeError "bool"))
    else (capture, some (.unmarshalTypeError "number"))

/-- The method `(*Decoder).Decode` of a fresh decoder over a stream that delivers
`body`: reads the first JSON value and stores it into `capture`.  When no
complete value can be read the error is returned and `capture` is not touched;
bytes after the first value are not looked at. -/
def jsonDecode (body : Bytes) (capture : Capture) : Capture × Option JsonError :=
  match readValue body with
  | .error e => (capture, some e)
  | .ok n => unmarshal (body.take n) capture


/-! ## net/http -/

/-- An `http.ResponseWriter` as the handler can change it: the status code of
the header once written, and the body bytes written. -/
structure ResponseWriter where
  status : Option Nat
  body : Bytes
  deriving DecidableEq, Repr

/-- The writer handed to a handler: nothing written yet. -/
def ResponseWriter.fresh : ResponseWriter := { status := none, body := [] }

/-- The method `WriteHeader`: sends the header with `code`; a second call is
superfluous and changes nothing. -/
def ResponseWriter.WriteHeader (w : ResponseWriter) (code : Nat) : ResponseWriter :=
  match w.status with
  | some _ => w
  | none => { w with status := some code }

/-- The constant `http.StatusCreated`. -/
def StatusCreated : Nat := 201

/-- The constant `http.StatusInternalServerError`. -/
def StatusInternalServerError : Nat := 500

/-- An `*http.Request`, reduced to the bytes its `Body` delivers. -/
structure Request where
  Body : Bytes
  deriving DecidableEq, Repr

/-! ## server.go -/

/-- Embedding of `func appendToFile(file string, contents []byte) (int, error)`. -/
def appendToFile (file : GoString) (contents : Bytes) (os : OS) :
    Outcome (Nat × Option GoError) :=
  match osOpenFile file 0o644 os with
  | (.error err, os1) => logFatal (lit "appendToFile: ") err os1
  | (.ok f, os1) =>
    -- defer f.Close()
    match fileWrite f contents os1 with
    | ((_, some err), os2) => logFatal (lit "appendToFile: ") err os2
    | ((bytesWritten, none), os2) =>
      -- return bytesWritten, err; then the deferred f.Close() runs
      .ret (bytesWritten, none) (fileClose f os2).2

/-- Embedding of `type OrgEntry struct`. -/
structure OrgEntry where
  Directory : GoString
  File : GoString
  Entry : Bytes
  deriving DecidableEq, Repr

/-- Embedding of `func (oe *OrgEntry) save() error`. -/
def OrgEntry.save (oe : OrgEntry) (os : OS) : Outcome (Option GoError) :=
  let filename := oe.Directory ++ lit "/" ++ oe.File
  match appendToFile filename oe.Entry os with
  | .exit code os1 => .exit code os1
  | .ret (bytesWritten, err) os1 =>
    match err with
    | some e => .ret (some e) os1
    | none => .ret none (logPrintf (.addedEntry filename bytesWritten) os1)

/-- Embedding of `type OrgConfig struct`. -/
structure OrgConfig where
  OrgDir : GoString
  DefaultCaptureFile : GoString
  deriving DecidableEq, Repr

/-- The `OrgEntry` that `dispatchOnTag` builds (its local `oe`). -/
def dispatchEntry (config : OrgConfig) (capture : Capture) : OrgEntry :=
  let contents := lit "** TODO " ++ capture.Headline ++ lit "\n" ++ capture.Body ++ lit "\n\n"
  let entry : Bytes := contents
  { Directory := config.OrgDir, File := config.DefaultCaptureFile, Entry := entry }

/-- Embedding of `func dispatchOnTag(config *OrgConfig, capture Capture) error`. -/
def dispatchOnTag (config : OrgConfig) (capture : Capture) (os : OS) : Outcome (Option GoError) :=
  (dispatchEntry config capture).save os


/-- Embedding of
`func captureHandler(w http.ResponseWriter, req *http.Request, config *OrgConfig)`. -/
def captureHandler (w : ResponseWriter) (req : Request) (config : OrgConfig) (os : OS) :
    Outcome ResponseWriter :=
  -- var capture Capture
  let capture : Capture := { Tag := [], Headline := [], Body := [], TagSpecific := [] }
  -- _ = json.NewDecoder(req.Body).Decode(&capture)
  let capture := (jsonDecode req.Body capture).1
  match dispatchOnTag config capture os with
  | .exit code os1 => .exit code os1
  | .ret err os1 =>
    let w1 :=
      match err with
      | some _ => w.WriteHeader StatusInternalServerError
      | none => w
    .ret (w1.WriteHeader StatusCreated) os1

/-- The process handling captures one after the other: `dispatchOnTag` on each,
until the list is done or the process exits. -/
def dispatchAll (config : OrgConfig) : List Capture → OS → Outcome Unit
  | [], os => .ret () os
  | c :: cs, os =>
    match dispatchOnTag config c os with
    | .exit code os1 => .exit code os1
    | .ret _ os1 => dispatchAll config cs os1

/-! ## Vocabulary of the specification -/

/-- The template of the specification, `format(N)`: the bytes of
`"** TODO " + headline + "\n" + body + "\n\n"`, spelled out. -/
def format (c : Capture) : Bytes :=
  [0x2A, 0x2A, 0x20, 0x54, 0x4F, 0x44, 0x4F, 0x20] ++ c.Headline ++ [0x0A] ++ c.Body
    ++ [0x0A, 0x0A]

/-- The target location of the specification: `directory + "/" + filename`. -/
def targetPath (cfg : OrgConfig) : GoString :=
  cfg.OrgDir ++ [0x2F] ++ cfg.DefaultCaptureFile

/-- The all-empty note. -/
def emptyCapture : Capture := { Tag := [], Headline := [], Body := [], TagSpecific := [] }

/-- Content of the file at `p`, an absent file counting as empty. -/
def content (os : OS) (p : GoString) : Bytes := (os.files p).getD []

/-- The system lets a write of `b` to the file at `p` go through in full. -/
def writeOk (os : OS) (p : GoString) (b : Bytes) : Bool :=
  match os.writeFault p with
  | none => true
  | some (k, _) => decide (b.length ≤ k)

/-- The append of `b` to the file at `p` succeeds: the open is not refused and
the write goes through in full. -/
def appendOk (os : OS) (p : GoString) (b : Bytes) : Bool :=
  (os.openFault p).isNone && writeOk os p b

/-- Number of bytes of `b` that reach the file at `p` in an append: none when
the open is refused, the partial count when the write fails, all otherwise. -/
def written (os : OS) (p : GoString) (b : Bytes) : Nat :=
  match os.openFault p with
  | some _ => 0
  | none =>
    match os.writeFault p with
    | none => b.length
    | some (k, _) => min k b.length

/-- The path a system call refers to. -/
def SysEvent.path : SysEvent → GoString
  | .opened p _ => p
  | .wrote p _ _ => p
  | .closed p => p

/-- The disk after `b` was appended to the file that `p` leads to. -/
def appended (os : OS) (p : GoString) (b : Bytes) : GoString → Option Bytes :=
  fun i => if i = os.resolve p then some (content os p ++ b) else os.disk i

/-! ## Sample configurations and system states -/

/-- A sample configuration: directory `org`, file `c.org`. -/
def cfg0 : OrgConfig := { OrgDir := lit "org", DefaultCaptureFile := lit "c.org" }

/-- Path resolution on a disk without links: a run of slashes counts as one. -/
def collapseSlashes : GoString → GoString
  | a :: b :: rest =>
    if a = 0x2F && b = 0x2F then collapseSlashes (b :: rest)
    else a :: collapseSlashes (b :: rest)
  | l => l

/-- An empty disk on which nothing fails. -/
def osEmpty : OS :=
  { resolve := collapseSlashes, disk := fun _ => none, openFault := fun _ => none,
    writeFault := fun _ => none, openFds := [], trace := [], log := [] }

/-- A system that refuses every open with errno 2 (no such directory). -/
def osNoDir : OS := { osEmpty with openFault := fun _ => some 2 }

/-- A system whose disk fills up after 3 bytes of any write (errno 28). -/
def osFull : OS := { osEmpty with writeFault := fun _ => some (3, 28) }

/-! ## Lemmas on the system calls and `appendToFile` -/

theorem lit_todo : lit "** TODO " = [0x2A, 0x2A, 0x20, 0x54, 0x4F, 0x44, 0x4F, 0x20] := by
  decide

theorem lit_newline : lit "\n" = [0x0A] := by decide

theorem lit_newline2 : lit "\n\n" = [0x0A, 0x0A] := by decide

theorem lit_slash : lit "/" = [0x2F] := by decide

theorem entry_eq_format (cfg : OrgConfig) (c : Capture) :
    (dispatchEntry cfg c).Entry = format c := by
  simp [dispatchEntry, format, lit_todo, lit_newline, lit_newline2]

theorem save_path (cfg : OrgConfig) (c : Capture) :
    (dispatchEntry cfg c).Directory ++ lit "/" ++ (dispatchEntry cfg c).File = targetPath cfg := by
  simp [dispatchEntry, targetPath, lit_slash]

theorem appendToFile_ok (p : GoString) (b : Bytes) (os : OS) (h : appendOk os p b = true) :
    appendToFile p b os =
      .ret (b.length, none)
        { os with
          disk := appended os p b
          trace := os.trace ++ [.opened p true, .wrote p b b.length, .closed p] } := by
  simp only [appendOk, Bool.and_eq_true, Option.isNone_iff_eq_none] at h
  obtain ⟨ho, hw⟩ := h
  have hfiles : (fun i => if i = os.resolve p then some ((os.disk (os.resolve p)).getD [] ++ b)
      else if i = os.resolve p then some ((os.disk (os.resolve p)).getD []) else os.disk i)
      = appended os p b := by
    funext i
    by_cases hi : i = os.resolve p <;> simp [appended, content, OS.files, hi]
  unfold appendToFile osOpenFile
  simp only [ho]
  unfold fileWrite fileClose
  cases hwf : os.writeFault p with
  | none => simp [OS.files, hwf, hfiles]
  | some kv =>
    obtain ⟨k, e⟩ := kv
    simp only [writeOk, hwf, decide_eq_true_eq] at hw
    simp [OS.files, hwf, hfiles, Nat.not_lt.mpr hw]

theorem appendToFile_openFail (p : GoString) (b : Bytes) (os : OS) (e : Nat)
    (ho : os.openFault p = some e) :
    appendToFile p b os =
      .exit 1
        { os with
          trace := os.trace ++ [.opened p false]
          log := os.log ++ [.fatal (lit "appendToFile: ") (.pathError "open" p e)] } := by
  unfold appendToFile osOpenFile
  simp [ho, logFatal]

theorem appendToFile_writeFail (p : GoString) (b : Bytes) (os : OS) (k e : Nat)
    (ho : os.openFault p = none) (hw : os.writeFault p = some (k, e)) (hk : k < b.length) :
    appendToFile p b os =
      .exit 1
        { os with
          disk := appended os p (b.take k)
          openFds := freshFd os.openFds :: os.openFds
          trace := os.trace ++ [.opened p true, .wrote p b k]
          log := os.log ++ [.fatal (lit "appendToFile: ") (.pathError "write" p e)] } := by
  have hfiles : (fun i =>
      if i = os.resolve p then some ((os.disk (os.resolve p)).getD [] ++ b.take k)
      else if i = os.resolve p then some ((os.disk (os.resolve p)).getD []) else os.disk i)
      = appended os p (b.take k) := by
    funext i
    by_cases hi : i = os.resolve p <;> simp [appended, content, OS.files, hi]
  unfold appendToFile osOpenFile
  simp only [ho]
  unfold fileWrite
  simp [OS.files, hw, hk, logFatal, hfiles]

/-- The three ways a call of `appendToFile` can go. -/
theorem appendToFile_cases (p : GoString) (b : Bytes) (os : OS) :
    (appendOk os p b = true ∧
      appendToFile p b os =
        .ret (b.length, none)
          { os with
            disk := appended os p b
            trace := os.trace ++ [.opened p true, .wrote p b b.length, .closed p] }) ∨
    (∃ e, os.openFault p = some e ∧ appendOk os p b = false ∧
      appendToFile p b os =
        .exit 1
          { os with
            trace := os.trace ++ [.opened p false]
            log := os.log ++ [.fatal (lit "appendToFile: ") (.pathError "open" p e)] }) ∨
    (∃ k e, os.openFault p = none ∧ os.writeFault p = some (k, e) ∧ k < b.length ∧
      appendOk os p b = false ∧
      appendToFile p b os =
        .exit 1
          { os with
            disk := appended os p (b.take k)
            openFds := freshFd os.openFds :: os.openFds
            trace := os.trace ++ [.opened p true, .wrote p b k]
            log := os.log ++ [.fatal (lit "appendToFile: ") (.pathError "write" p e)] }) := by
  cases ho : os.openFault p with
  | some e =>
    right; left
    exact ⟨e, rfl, by simp [appendOk, ho], appendToFile_openFail p b os e ho⟩
  | none =>
    cases hw : os.writeFault p with
    | none =>
      left
      have h : appendOk os p b = true := by simp [appendOk, writeOk, ho, hw]
      exact ⟨h, appendToFile_ok p b os h⟩
    | some kv =>
      obtain ⟨k, e⟩ := kv
      by_cases hk : k < b.length
      · right; right
        exact ⟨k, e, rfl, rfl, hk, by simp [appendOk, writeOk, ho, hw, hk],
          appendToFile_writeFail p b os k e ho hw hk⟩
      · left
        have h : appendOk os p b = true := by
          simp [appendOk, writeOk, ho, hw, Nat.le_of_not_lt hk]
        exact ⟨h, appendToFile_ok p b os h⟩

theorem save_ok (oe : OrgEntry) (os : OS)
    (h : appendOk os (oe.Directory ++ lit "/" ++ oe.File) oe.Entry = true) :
    oe.save os =
      .ret none
        { os with
          disk := appended os (oe.Directory ++ lit "/" ++ oe.File) oe.Entry
          trace := os.trace ++
            [.opened (oe.Directory ++ lit "/" ++ oe.File) true,
              .wrote (oe.Directory ++ lit "/" ++ oe.File) oe.Entry oe.Entry.length,
              .closed (oe.Directory ++ lit "/" ++ oe.File)]
          log := os.log ++ [.addedEntry (oe.Directory ++ lit "/" ++ oe.File) oe.Entry.length] } := by
  simp only [OrgEntry.save, appendToFile_ok _ _ _ h, logPrintf]

theorem dispatchOnTag_ok (cfg : OrgConfig) (c : Capture) (os : OS)
    (h : appendOk os (targetPath cfg) (format c) = true) :
    dispatchOnTag cfg c os =
      .ret none
        { os with
          disk := appended os (targetPath cfg) (format c)
          trace := os.trace ++
            [.opened (targetPath cfg) true,
              .wrote (targetPath cfg) (format c) (format c).length,
              .closed (targetPath cfg)]
          log := os.log ++ [.addedEntry (targetPath cfg) (format c).length] } := by
  have h1 := save_ok (dispatchEntry cfg c) os
  rw [save_path, entry_eq_format] at h1
  exact h1 h

theorem dispatchOnTag_eq (cfg : OrgConfig) (c : Capture) (os : OS) :
    dispatchOnTag cfg c os =
      match appendToFile (targetPath cfg) (format c) os with
      | .exit code os1 => .exit code os1
      | .ret (n, err) os1 =>
        match err with
        | some e => .ret (some e) os1
        | none => .ret none (logPrintf (.addedEntry (targetPath cfg) n) os1) := by
  unfold dispatchOnTag OrgEntry.save
  simp only [save_path, entry_eq_format]

theorem dispatchOnTag_openFail (cfg : OrgConfig) (c : Capture) (os : OS) (e : Nat)
    (ho : os.openFault (targetPath cfg) = some e) :
    dispatchOnTag cfg c os =
      .exit 1
        { os with
          trace := os.trace ++ [.opened (targetPath cfg) false]
          log := os.log ++
            [.fatal (lit "appendToFile: ") (.pathError "open" (targetPath cfg) e)] } := by
  rw [dispatchOnTag_eq, appendToFile_openFail _ _ _ e ho]

theorem dispatchOnTag_writeFail (cfg : OrgConfig) (c : Capture) (os : OS) (k e : Nat)
    (ho : os.openFault (targetPath cfg) = none)
    (hw : os.writeFault (targetPath cfg) = some (k, e)) (hk : k < (format c).length) :
    dispatchOnTag cfg c os =
      .exit 1
        { os with
          disk := appended os (targetPath cfg) ((format c).take k)
          openFds := freshFd os.openFds :: os.openFds
          trace := os.trace ++
            [.opened (targetPath cfg) true, .wrote (targetPath cfg) (format c) k]
          log := os.log ++
            [.fatal (lit "appendToFile: ") (.pathError "write" (targetPath cfg) e)] } := by
  rw [dispatchOnTag_eq, appendToFile_writeFail _ _ _ k e ho hw hk]

theorem appendOk_false_cases (os : OS) (p : GoString) (b : Bytes)
    (h : appendOk os p b = false) :
    (∃ e, os.openFault p = some e) ∨
      (∃ k e, os.openFault p = none ∧ os.writeFault p = some (k, e) ∧ k < b.length) := by
  rcases appendToFile_cases p b os with h1 | ⟨e, ho, _⟩ | ⟨k, e, ho, hw, hk, _⟩
  · rw [h1.1] at h; cases h
  · exact Or.inl ⟨e, ho⟩
  · exact Or.inr ⟨k, e, ho, hw, hk⟩

/-- What `dispatchOnTag` adds to the system-call trace: calls on the target path
only, and every write among them is called with the formatted entry. -/
theorem dispatchOnTag_trace (cfg : OrgConfig) (c : Capture) (os : OS) :
    ∃ evs, (dispatchOnTag cfg c os).os.trace = os.trace ++ evs ∧
      ∀ ev ∈ evs, ev.path = targetPath cfg ∧ ∀ p d n, ev = .wrote p d n → d = format c := by
  rw [dispatchOnTag_eq]
  rcases appendToFile_cases (targetPath cfg) (format c) os with
    ⟨_, h⟩ | ⟨e, _, _, h⟩ | ⟨k, e, _, _, _, _, h⟩
  · rw [h]
    refine ⟨_, rfl, ?_⟩
    intro ev hev
    simp only [List.mem_cons, List.mem_singleton, List.not_mem_nil, or_false] at hev
    rcases hev with rfl | rfl | rfl <;> simp [SysEvent.path]
  · rw [h]
    refine ⟨_, rfl, ?_⟩
    intro ev hev
    simp only [List.mem_singleton] at hev
    subst hev
    simp [SysEvent.path]
  · rw [h]
    refine ⟨_, rfl, ?_⟩
    intro ev hev
    simp only [List.mem_cons, List.mem_singleton, List.not_mem_nil, or_false] at hev
    rcases hev with rfl | rfl <;> simp [SysEvent.path]

theorem captureHandler_eq (w : ResponseWriter) (req : Request) (cfg : OrgConfig) (os : OS) :
    captureHandler w req cfg os =
      match dispatchOnTag cfg (jsonDecode req.Body emptyCapture).1 os with
      | .exit code os1 => .exit code os1
      | .ret err os1 =>
        .ret ((match err with
          | some _ => w.WriteHeader StatusInternalServerError
          | none => w).WriteHeader StatusCreated) os1 := rfl

theorem format_length (c : Capture) :
    (format c).length = c.Headline.length + c.Body.length + 11 := by
  simp [format]
  omega

theorem freshFd_not_mem (fds : List Nat) : freshFd fds ∉ fds := by
  have key : ∀ (l : List Nat) (a x : Nat), x = a ∨ x ∈ l → x ≤ l.foldl max a := by
    intro l
    induction l with
    | nil =>
      intro a x hx
      rcases hx with rfl | hx
      · exact Nat.le_refl _
      · cases hx
    | cons y ys ih =>
      intro a x hx
      simp only [List.foldl_cons]
      rcases hx with rfl | hx
      · exact Nat.le_trans (Nat.le_max_left _ y) (ih _ _ (Or.inl rfl))
      · rcases List.mem_cons.mp hx with rfl | hx
        · exact Nat.le_trans (Nat.le_max_right a _) (ih _ _ (Or.inl rfl))
        · exact ih _ _ (Or.inr hx)
  intro hmem
  have := key fds 0 _ (Or.inr hmem)
  unfold freshFd at this
  omega

theorem content_appended (os : OS) (p : GoString) (b : Bytes) :
    (appended os p b (os.resolve p)).getD [] = content os p ++ b := by
  simp [appended]

/-- Appends that all succeed, run one after the other, leave the target file with
its prior content followed by the entries in order. -/
theorem dispatchAll_ok (cfg : OrgConfig) (cs : List Capture) (os : OS)
    (h : ∀ c ∈ cs, appendOk os (targetPath cfg) (format c) = true) :
    ∃ os1, dispatchAll cfg cs os = .ret () os1 ∧
      content os1 (targetPath cfg) = content os (targetPath cfg) ++ (cs.map format).flatten ∧
      (cs ≠ [] → os1.files (targetPath cfg) ≠ none) := by
  induction cs generalizing os with
  | nil => exact ⟨os, rfl, by simp, by simp⟩
  | cons c cs ih =>
    have hc := h c (List.mem_cons_self _ _)
    obtain ⟨os2, h2, h3, _⟩ := ih
      { os with
        disk := appended os (targetPath cfg) (format c)
        trace := os.trace ++
          [.opened (targetPath cfg) true,
            .wrote (targetPath cfg) (format c) (format c).length,
            .closed (targetPath cfg)]
        log := os.log ++ [.addedEntry (targetPath cfg) (format c).length] }
      (fun c1 hc1 => by
        have := h c1 (List.mem_cons_of_mem _ hc1)
        simpa [appendOk, writeOk] using this)
    refine ⟨os2, ?_, ?_, ?_⟩
    · simp only [dispatchAll, dispatchOnTag_ok cfg c os hc]
      exact h2
    · rw [h3]
      simp [content, appended, OS.files]
    · intro _ hnone
      have h4 : content os2 (targetPath cfg) = [] := by simp [content, hnone]
      rw [h3] at h4
      simp [content, appended, OS.files, format] at h4

/-! ## The claims -/

/-- C1: for every Capture, the entry that `dispatchOnTag` builds and hands to the
writer is exactly the bytes of `"** TODO "`, the headline, a newline, the body
and two newlines: that is the `Entry` of the `OrgEntry` it saves, and the data
of every write it issues.  For the all-empty Capture the entry is exactly the
eleven bytes of `"** TODO \n\n\n"`. -/
theorem C1_entry_is_template (cfg : OrgConfig) (c : Capture) (os : OS) :
    (dispatchEntry cfg c).Entry
        = [0x2A, 0x2A, 0x20, 0x54, 0x4F, 0x44, 0x4F, 0x20] ++ c.Headline ++ [0x0A] ++ c.Body
            ++ [0x0A, 0x0A]
      ∧ dispatchOnTag cfg c os
        = OrgEntry.save
            { Directory := cfg.OrgDir, File := cfg.DefaultCaptureFile,
              Entry := [0x2A, 0x2A, 0x20, 0x54, 0x4F, 0x44, 0x4F, 0x20] ++ c.Headline ++ [0x0A]
                ++ c.Body ++ [0x0A, 0x0A] } os
      ∧ (∃ evs, (dispatchOnTag cfg c os).os.trace = os.trace ++ evs ∧
          ∀ p d n, SysEvent.wrote p d n ∈ evs →
            d = [0x2A, 0x2A, 0x20, 0x54, 0x4F, 0x44, 0x4F, 0x20] ++ c.Headline ++ [0x0A]
              ++ c.Body ++ [0x0A, 0x0A])
      ∧ (dispatchEntry cfg { Tag := [], Headline := [], Body := [], TagSpecific := [] }).Entry
        = [0x2A, 0x2A, 0x20, 0x54, 0x4F, 0x44, 0x4F, 0x20, 0x0A, 0x0A, 0x0A] := by
  refine ⟨entry_eq_format cfg c, ?_, ?_, ?_⟩
  · unfold dispatchOnTag
    congr 1
  · obtain ⟨evs, h1, h2⟩ := dispatchOnTag_trace cfg c os
    exact ⟨evs, h1, fun p d n hmem => (h2 _ hmem).2 p d n rfl⟩
  · rw [entry_eq_format]
    rfl

/-- C3: for every request and configuration for which the append succeeds,
`captureHandler` returns with the header written with status 201 (Created) and
the response body untouched: nothing is written to it. -/
theorem C3_created_on_success (w : ResponseWriter) (req : Request) (cfg : OrgConfig) (os : OS)
    (hw : w.status = none)
    (h : appendOk os (targetPath cfg) (format (jsonDecode req.Body emptyCapture).1) = true) :
    ∃ os1, captureHandler w req cfg os = .ret { status := some 201, body := w.body } os1 := by
  have hh : w.WriteHeader StatusCreated = { status := some 201, body := w.body } := by
    simp [ResponseWriter.WriteHeader, hw, StatusCreated]
  rw [captureHandler_eq, dispatchOnTag_ok cfg _ os h, ← hh]
  exact ⟨_, rfl⟩

/-- Witness of C3: a well-formed capture posted to an empty, healthy disk. -/
theorem C3_created_on_success_witness :
    ∃ os1, captureHandler ResponseWriter.fresh { Body := lit "\x7b\"headline\":\"a\"\x7d" } cfg0
      osEmpty = .ret { status := some 201, body := [] } os1 :=
  C3_created_on_success ResponseWriter.fresh { Body := lit "\x7b\"headline\":\"a\"\x7d" } cfg0
    osEmpty rfl (by decide)

/-- C2: over the file system as a map from path to bytes, for every
configuration and every finite sequence of Captures whose appends all succeed,
running `dispatchOnTag` on them in order returns and leaves the target file
holding its initial content followed by `format(N1) ++ ... ++ format(Nk)`; on a
target that was absent or empty the file holds exactly that concatenation (for
one Capture, exactly its entry).  Prior content is a prefix of the result:
nothing is truncated or reordered. -/
theorem C2_appends_concatenate (cfg : OrgConfig) (cs : List Capture) (os : OS)
    (h : ∀ c ∈ cs, appendOk os (targetPath cfg) (format c) = true) :
    ∃ os1, dispatchAll cfg cs os = .ret () os1 ∧
      content os1 (targetPath cfg) = content os (targetPath cfg) ++ (cs.map format).flatten ∧
      (∀ c0, os.files (targetPath cfg) = some c0 → cs ≠ [] →
        os1.files (targetPath cfg) = some (c0 ++ (cs.map format).flatten)) ∧
      ((os.files (targetPath cfg) = none ∨ os.files (targetPath cfg) = some []) → cs ≠ [] →
        os1.files (targetPath cfg) = some ((cs.map format).flatten)) ∧
      (∀ c1, (os.files (targetPath cfg) = none ∨ os.files (targetPath cfg) = some []) →
        cs = [c1] → os1.files (targetPath cfg) = some (format c1)) := by
  obtain ⟨os1, h1, h2, h3⟩ := dispatchAll_ok cfg cs os h
  have hsome : cs ≠ [] → os1.files (targetPath cfg) = some (content os1 (targetPath cfg)) := by
    intro hne
    have := h3 hne
    cases hf : os1.files (targetPath cfg) with
    | none => exact absurd hf this
    | some v => simp [content, hf]
  refine ⟨os1, h1, h2, ?_, ?_, ?_⟩
  · intro c0 hc0 hne
    rw [hsome hne, h2]
    simp [content, hc0]
  · intro hc0 hne
    rw [hsome hne, h2]
    rcases hc0 with hc0 | hc0 <;> simp [content, hc0]
  · intro c1 hc0 hcs
    have hne : cs ≠ [] := by rw [hcs]; simp
    rw [hsome hne, h2, hcs]
    rcases hc0 with hc0 | hc0 <;> simp [content, hc0]

/-- Witness of C2: two captures appended to an empty disk. -/
theorem C2_appends_concatenate_witness :
    ∃ os1, dispatchAll cfg0
        [{ Tag := [], Headline := lit "a", Body := lit "b", TagSpecific := [] },
          { Tag := lit "t", Headline := [], Body := [], TagSpecific := [] }] osEmpty
        = .ret () os1 ∧
      os1.files (targetPath cfg0)
        = some (lit "** TODO a\nb\n\n** TODO \n\n\n") := by
  obtain ⟨os1, h1, _, _, h2, _⟩ := C2_appends_concatenate cfg0
    [{ Tag := [], Headline := lit "a", Body := lit "b", TagSpecific := [] },
      { Tag := lit "t", Headline := [], Body := [], TagSpecific := [] }] osEmpty (by decide)
  exact ⟨os1, h1, (h2 (Or.inl rfl) (by simp)).trans (by decide)⟩

/-- When the append fails (the open is refused, or the write stops part-way),
`appendToFile` logs the error with `log.Fatal` and the process exits with status
1: `appendToFile`, `save`, `dispatchOnTag` and `captureHandler` do not return.
At that point the target file has grown by exactly the partial count, which is
less than the length of the entry. -/
theorem captureHandler_append_failure (w : ResponseWriter) (req : Request) (cfg : OrgConfig)
    (os : OS)
    (h : appendOk os (targetPath cfg) (format (jsonDecode req.Body emptyCapture).1) = false) :
    ∃ os1 err,
      appendToFile (targetPath cfg) (format (jsonDecode req.Body emptyCapture).1) os = .exit 1 os1
      ∧ (dispatchEntry cfg (jsonDecode req.Body emptyCapture).1).save os = .exit 1 os1
      ∧ dispatchOnTag cfg (jsonDecode req.Body emptyCapture).1 os = .exit 1 os1
      ∧ captureHandler w req cfg os = .exit 1 os1
      ∧ os1.log = os.log ++ [.fatal (lit "appendToFile: ") err]
      ∧ content os1 (targetPath cfg)
        = content os (targetPath cfg)
          ++ (format (jsonDecode req.Body emptyCapture).1).take
              (written os (targetPath cfg) (format (jsonDecode req.Body emptyCapture).1))
      ∧ written os (targetPath cfg) (format (jsonDecode req.Body emptyCapture).1)
        < (format (jsonDecode req.Body emptyCapture).1).length := by
  have hlen : 0 < (format (jsonDecode req.Body emptyCapture).1).length := by
    rw [format_length]; omega
  rcases appendOk_false_cases os _ _ h with ⟨e, ho⟩ | ⟨k, e, ho, hw, hk⟩
  · refine ⟨_, _, appendToFile_openFail _ _ os e ho, ?_, dispatchOnTag_openFail cfg _ os e ho,
      ?_, rfl, ?_, ?_⟩
    · exact dispatchOnTag_openFail cfg _ os e ho
    · rw [captureHandler_eq, dispatchOnTag_openFail cfg _ os e ho]
    · simp [content, OS.files, written, ho]
    · simpa [written, ho] using hlen
  · refine ⟨_, _, appendToFile_writeFail _ _ os k e ho hw hk, ?_,
      dispatchOnTag_writeFail cfg _ os k e ho hw hk, ?_, rfl, ?_, ?_⟩
    · exact dispatchOnTag_writeFail cfg _ os k e ho hw hk
    · rw [captureHandler_eq, dispatchOnTag_writeFail cfg _ os k e ho hw hk]
    · simp [content, appended, OS.files, written, ho, hw, Nat.min_eq_left (Nat.le_of_lt hk)]
    · simpa [written, ho, hw, Nat.min_eq_left (Nat.le_of_lt hk)] using hk

/-- C4: the code at the failing inputs.  The claim says a failed append is
passed up as an error value, answered with status 500, and leaves the process
running.  With the target directory missing the open is refused, and with the
disk full the write stops after three bytes; in both cases `appendToFile`
returns nothing (so neither an error nor a partial count reaches `save`,
`dispatchOnTag` or the handler), `captureHandler` writes no response (in
particular no status 500), and the process exits with status 1 after the fatal
log line; on the full disk the file keeps the three bytes written. -/
theorem C4_failed_append_exits_process :
    appendOk osNoDir (targetPath cfg0)
        (format (jsonDecode (lit "\x7b\x7d") emptyCapture).1) = false
      ∧ (¬ ∃ r os1, appendToFile (targetPath cfg0) (format emptyCapture) osNoDir = .ret r os1)
      ∧ (¬ ∃ w os1, captureHandler ResponseWriter.fresh { Body := lit "\x7b\x7d" } cfg0 osNoDir
          = .ret w os1)
      ∧ (∃ os1, captureHandler ResponseWriter.fresh { Body := lit "\x7b\x7d" } cfg0 osNoDir
          = .exit 1 os1
        ∧ os1.log = [.fatal (lit "appendToFile: ") (.pathError "open" (targetPath cfg0) 2)])
      ∧ appendOk osFull (targetPath cfg0)
        (format (jsonDecode (lit "\x7b\x7d") emptyCapture).1) = false
      ∧ (¬ ∃ r os1, appendToFile (targetPath cfg0) (format emptyCapture) osFull = .ret r os1)
      ∧ (¬ ∃ w os1, captureHandler ResponseWriter.fresh { Body := lit "\x7b\x7d" } cfg0 osFull
          = .ret w os1)
      ∧ (∃ os1, captureHandler ResponseWriter.fresh { Body := lit "\x7b\x7d" } cfg0 osFull
          = .exit 1 os1
        ∧ os1.files (targetPath cfg0) = some [0x2A, 0x2A, 0x20]
        ∧ os1.log = [.fatal (lit "appendToFile: ") (.pathError "write" (targetPath cfg0) 28)]) := by
  have ho : osNoDir.openFault (targetPath cfg0) = some 2 := rfl
  have ho2 : osFull.openFault (targetPath cfg0) = none := rfl
  have hw2 : osFull.writeFault (targetPath cfg0) = some (3, 28) := rfl
  have hk : ∀ c : Capture, 3 < (format c).length := by
    intro c; rw [format_length]; omega
  refine ⟨by decide, ?_, ?_, ?_, by decide, ?_, ?_, ?_⟩
  · rintro ⟨r, os1, h⟩
    rw [appendToFile_openFail _ _ osNoDir 2 ho] at h
    cases h
  · rintro ⟨w, os1, h⟩
    rw [captureHandler_eq, dispatchOnTag_openFail cfg0 _ osNoDir 2 ho] at h
    cases h
  · rw [captureHandler_eq, dispatchOnTag_openFail cfg0 _ osNoDir 2 ho]
    exact ⟨_, rfl, rfl⟩
  · rintro ⟨r, os1, h⟩
    rw [appendToFile_writeFail _ _ osFull 3 28 ho2 hw2 (hk _)] at h
    cases h
  · rintro ⟨w, os1, h⟩
    rw [captureHandler_eq, dispatchOnTag_writeFail cfg0 _ osFull 3 28 ho2 hw2 (hk _)] at h
    cases h
  · rw [captureHandler_eq, dispatchOnTag_writeFail cfg0 _ osFull 3 28 ho2 hw2 (hk _)]
    exact ⟨_, rfl, by decide, rfl⟩

/-- C5 as stated fails.  The body `{"headline":"x","body":5}` is an invalid
capture payload (the body is a number) and `Decode` reports an error, yet the
decoded note keeps the headline; the body `{"headline":"x"}}` is not valid JSON
and `Decode` reports nothing, again keeping the headline.  In both cases the
entry appended is `"** TODO x\n\n\n"`, not `"** TODO \n\n\n"`. -/
theorem C5_counterexample :
    (jsonDecode (lit "\x7b\"headline\":\"x\",\"body\":5\x7d") emptyCapture).2
        = some (.unmarshalTypeError "number")
      ∧ (jsonDecode (lit "\x7b\"headline\":\"x\",\"body\":5\x7d") emptyCapture).1
        = { Tag := [], Headline := [0x78], Body := [], TagSpecific := [] }
      ∧ (captureHandler ResponseWriter.fresh
          { Body := lit "\x7b\"headline\":\"x\",\"body\":5\x7d" } cfg0 osEmpty).os.files
            (targetPath cfg0)
        = some [0x2A, 0x2A, 0x20, 0x54, 0x4F, 0x44, 0x4F, 0x20, 0x78, 0x0A, 0x0A, 0x0A]
      ∧ valid (lit "\x7b\"headline\":\"x\",\"body\":5\x7d") = true
      ∧ valid (lit "\x7b\"headline\":\"x\"\x7d\x7d") = false
      ∧ (jsonDecode (lit "\x7b\"headline\":\"x\"\x7d\x7d") emptyCapture).2 = none
      ∧ (captureHandler ResponseWriter.fresh
          { Body := lit "\x7b\"headline\":\"x\"\x7d\x7d" } cfg0 osEmpty).os.files
            (targetPath cfg0)
        = some [0x2A, 0x2A, 0x20, 0x54, 0x4F, 0x44, 0x4F, 0x20, 0x78, 0x0A, 0x0A, 0x0A] := by
  refine ⟨by decide, by decide, by decide, by decide, by decide, by decide, by decide⟩

/-- C5, amended: the decode step never aborts the request.  For every request
body the error of `Decode` is discarded and the handler formats and appends
whatever Capture the decoder left; when the append succeeds the response status
is 201.  When no complete JSON value can be read from the body (a syntax error
or a premature end of input, as for a body that is not JSON at all) the Capture
is still all-empty and the entry appended is `"** TODO \n\n\n"`. -/
theorem C5_decode_error_ignored (w : ResponseWriter) (req : Request) (cfg : OrgConfig) (os : OS)
    (hw : w.status = none)
    (h : appendOk os (targetPath cfg) (format (jsonDecode req.Body emptyCapture).1) = true) :
    ∃ os1, captureHandler w req cfg os = .ret { status := some 201, body := w.body } os1
      ∧ os1.files (targetPath cfg)
        = some (content os (targetPath cfg) ++ format (jsonDecode req.Body emptyCapture).1)
      ∧ (∀ e, readValue req.Body = .error e →
          (jsonDecode req.Body emptyCapture).1
              = { Tag := [], Headline := [], Body := [], TagSpecific := [] }
            ∧ (jsonDecode req.Body emptyCapture).2 = some e
            ∧ os1.files (targetPath cfg)
              = some (content os (targetPath cfg)
                  ++ [0x2A, 0x2A, 0x20, 0x54, 0x4F, 0x44, 0x4F, 0x20, 0x0A, 0x0A, 0x0A])) := by
  have hh : w.WriteHeader StatusCreated = { status := some 201, body := w.body } := by
    simp [ResponseWriter.WriteHeader, hw, StatusCreated]
  rw [captureHandler_eq, dispatchOnTag_ok cfg _ os h, ← hh]
  refine ⟨_, rfl, by simp [appended, OS.files], ?_⟩
  intro e he
  have hd : jsonDecode req.Body emptyCapture = (emptyCapture, some e) := by
    simp [jsonDecode, he]
  refine ⟨by rw [hd]; rfl, by rw [hd], ?_⟩
  rw [hd]
  simp [appended, OS.files, format, emptyCapture]

/-- Witness of C5 (amended): the body `not json` posted to an empty disk. -/
theorem C5_decode_error_ignored_witness :
    ∃ os1, captureHandler ResponseWriter.fresh { Body := lit "not json" } cfg0 osEmpty
        = .ret { status := some 201, body := [] } os1
      ∧ os1.files (targetPath cfg0)
        = some [0x2A, 0x2A, 0x20, 0x54, 0x4F, 0x44, 0x4F, 0x20, 0x0A, 0x0A, 0x0A] := by
  obtain ⟨os1, h1, _, h2⟩ := C5_decode_error_ignored ResponseWriter.fresh
    { Body := lit "not json" } cfg0 osEmpty rfl (by decide)
  exact ⟨os1, h1, (h2 .syntaxError rfl).2.2⟩

/-- C6: for every configuration and every two Captures with the same headline
and the same body, whatever their tags and tag-specific data, `dispatchOnTag`
builds the same `OrgEntry` (same bytes, same directory and file) and has the
same outcome on every system state: the same result, the same files, the same
system calls and log lines. -/
theorem C6_tag_ignored (cfg : OrgConfig) (c1 c2 : Capture) (os : OS)
    (hh : c1.Headline = c2.Headline) (hb : c1.Body = c2.Body) :
    (dispatchEntry cfg c1).Entry = (dispatchEntry cfg c2).Entry
      ∧ dispatchEntry cfg c1 = dispatchEntry cfg c2
      ∧ dispatchOnTag cfg c1 os = dispatchOnTag cfg c2 os := by
  have h : dispatchEntry cfg c1 = dispatchEntry cfg c2 := by
    simp [dispatchEntry, hh, hb]
  exact ⟨by rw [h], h, by unfold dispatchOnTag; rw [h]⟩

/-- Witness of C6: two captures that differ in tag and tag data only. -/
theorem C6_tag_ignored_witness :
    dispatchOnTag cfg0
        { Tag := lit "work", Headline := lit "a", Body := lit "b", TagSpecific := lit "x" } osEmpty
      = dispatchOnTag cfg0
        { Tag := lit "home", Headline := lit "a", Body := lit "b", TagSpecific := [] } osEmpty :=
  (C6_tag_ignored cfg0
    { Tag := lit "work", Headline := lit "a", Body := lit "b", TagSpecific := lit "x" }
    { Tag := lit "home", Headline := lit "a", Body := lit "b", TagSpecific := [] } osEmpty
    rfl rfl).2.2

/-- C7: for every path and contents, when the open and the write both succeed,
`appendToFile` returns `(len(contents), nil)` and the file at that path holds
its former content followed by `contents`, so it is longer by exactly
`len(contents)` bytes (an absent file counting as empty); the entry built by
`dispatchOnTag` has `len(headline) + len(body) + 11` bytes. -/
theorem C7_bytes_written (path : GoString) (contents : Bytes) (os : OS) (cfg : OrgConfig)
    (c : Capture) (h : appendOk os path contents = true) :
    ∃ os1, appendToFile path contents os = .ret (contents.length, none) os1
      ∧ os1.files path = some (content os path ++ contents)
      ∧ (content os1 path).length = (content os path).length + contents.length
      ∧ (dispatchEntry cfg c).Entry.length = c.Headline.length + c.Body.length + 11 := by
  rw [appendToFile_ok path contents os h]
  refine ⟨_, rfl, by simp [appended, OS.files], by simp [content, appended, OS.files], ?_⟩
  rw [entry_eq_format, format_length]

/-- Witness of C7: five bytes appended to a new file on an empty disk. -/
theorem C7_bytes_written_witness :
    ∃ os1, appendToFile (lit "f") (lit "hello") osEmpty = .ret (5, none) os1
      ∧ os1.files (lit "f") = some (lit "hello") := by
  obtain ⟨os1, h1, h2, _⟩ := C7_bytes_written (lit "f") (lit "hello") osEmpty cfg0 emptyCapture
    (by decide)
  exact ⟨os1, h1, h2⟩

/-- A call of `appendToFile` whose open and write succeed returns having closed
the descriptor it acquired: the close is its last system call, the descriptor
is no longer open, and the set of open descriptors is what it was before. -/
theorem appendToFile_closes_on_return (path : GoString) (contents : Bytes) (os : OS)
    (h : appendOk os path contents = true) :
    ∃ r os1, appendToFile path contents os = .ret r os1
      ∧ os1.trace
        = os.trace ++ [.opened path true, .wrote path contents contents.length, .closed path]
      ∧ freshFd os.openFds ∉ os1.openFds
      ∧ os1.openFds = os.openFds := by
  rw [appendToFile_ok path contents os h]
  exact ⟨_, _, rfl, rfl, freshFd_not_mem os.openFds, rfl⟩

/-- C9: the code at the failing input.  The claim says the handle is closed on
every exit path after a successful open, write failure included.  Here the open
succeeds, the write stops after three bytes, `log.Fatal` ends the process, and
the deferred `Close` has not run: no close was issued and the descriptor
acquired is still open.  On the same path with a healthy disk the call returns
with the descriptor closed. -/
theorem C9_handle_open_after_write_failure :
    osFull.openFault (lit "f") = none
      ∧ (appendToFile (lit "f") (lit "hello") osFull).returned = false
      ∧ (appendToFile (lit "f") (lit "hello") osFull).os.trace
        = [.opened (lit "f") true, .wrote (lit "f") (lit "hello") 3]
      ∧ freshFd osFull.openFds ∈ (appendToFile (lit "f") (lit "hello") osFull).os.openFds
      ∧ SysEvent.closed (lit "f") ∉ (appendToFile (lit "f") (lit "hello") osFull).os.trace
      ∧ (appendToFile (lit "f") (lit "hello") osEmpty).returned = true
      ∧ (appendToFile (lit "f") (lit "hello") osEmpty).os.openFds = [] := by
  refine ⟨rfl, by decide, by decide, by decide, by decide, by decide, by decide⟩

/-- C10: `appendToFile` either returns `(len(contents), nil)` or ends the process
with exit status 1; it never returns a non-nil error.  Consequently
`OrgEntry.save` and `dispatchOnTag` either return nil or end the process, the
branch of `captureHandler` that writes status 500 is never taken, and
`captureHandler` either ends the process or returns having applied
`WriteHeader(201)` and nothing else to the writer, which on a fresh writer is
status 201 with an empty body. -/
theorem C10_error_never_returned (file : GoString) (contents : Bytes) (oe : OrgEntry)
    (cfg : OrgConfig) (c : Capture) (w : ResponseWriter) (req : Request) (os : OS) :
    ((∃ os1, appendToFile file contents os = .ret (contents.length, none) os1)
        ∨ ∃ os1, appendToFile file contents os = .exit 1 os1)
      ∧ ((∃ os1, oe.save os = .ret none os1) ∨ ∃ os1, oe.save os = .exit 1 os1)
      ∧ ((∃ os1, dispatchOnTag cfg c os = .ret none os1)
        ∨ ∃ os1, dispatchOnTag cfg c os = .exit 1 os1)
      ∧ ((∃ os1, captureHandler w req cfg os = .ret (w.WriteHeader 201) os1)
        ∨ ∃ os1, captureHandler w req cfg os = .exit 1 os1)
      ∧ ResponseWriter.fresh.WriteHeader 201 = { status := some 201, body := [] } := by
  have happ : ∀ (p : GoString) (b : Bytes),
      (∃ os1, appendToFile p b os = .ret (b.length, none) os1)
        ∨ ∃ os1, appendToFile p b os = .exit 1 os1 := by
    intro p b
    rcases appendToFile_cases p b os with ⟨_, h⟩ | ⟨e, _, _, h⟩ | ⟨k, e, _, _, _, _, h⟩
    · exact Or.inl ⟨_, h⟩
    · exact Or.inr ⟨_, h⟩
    · exact Or.inr ⟨_, h⟩
  have hsave : ∀ oe : OrgEntry,
      (∃ os1, oe.save os = .ret none os1) ∨ ∃ os1, oe.save os = .exit 1 os1 := by
    intro oe
    rcases happ (oe.Directory ++ lit "/" ++ oe.File) oe.Entry with ⟨os1, h⟩ | ⟨os1, h⟩
    · exact Or.inl ⟨_, by simp only [OrgEntry.save, h]; rfl⟩
    · exact Or.inr ⟨_, by simp only [OrgEntry.save, h]; rfl⟩
  refine ⟨happ file contents, hsave oe, hsave _, ?_, rfl⟩
  rcases hsave (dispatchEntry cfg (jsonDecode req.Body emptyCapture).1) with ⟨os1, h⟩ | ⟨os1, h⟩
  · left
    refine ⟨os1, ?_⟩
    rw [captureHandler_eq]
    unfold dispatchOnTag
    rw [h]
    rfl
  · right
    refine ⟨os1, ?_⟩
    rw [captureHandler_eq]
    unfold dispatchOnTag
    rw [h]

end OrgCapture
